import Mathlib

/-!
Verification of the tile-parallel scheduling and sampling core of the
KawaiiMiao renderer.

The development shallowly embeds three C++ source files:

* `Tool/Parallel.h` — the `AParallelUtils` scheduler with its two parallel
  strategies (`parallel_for`, the private static split, and
  `parallel_for_seize`, the atomic work cursor) and the public dispatch
  entry point `parallelFor`;
* `Core/Scene.h` (the `Sampler` / `RandomSampler` part) — the sample-array
  registration and consumption protocol;
* `Materials/LambertianMaterial.cpp` — `computeScatteringFunctions`.

Loops are modelled by the list of arguments they pass to the user callback,
state-mutating member functions by pure state-passing functions, machine
integers by `Nat` / `Int` (no value in any analysed run approaches the
word-size bounds), and fatal `CHECK_*` assertion failures by explicit
error constructors.
-/

namespace PBRT

/-! ### Scheduler: `AParallelUtils` (Tool/Parallel.h)

The hardware thread count `numSystemCores()` (`max 1 hardware_concurrency`)
is environment dependent; it is abstracted as a parameter `n_threads`
constrained to be at least `1` where a claim needs it. -/

/-- Indices visited, in order, by a C++ loop running `k` from `s` (inclusive)
to `e` (exclusive) in steps of one over a signed integer type. -/
def intLoop (s e : Int) : List Int :=
  (List.range (e - s).toNat).map (fun (i : Nat) => s + (i : Int))

/-- `n_max_tasks_per_thread` of `AParallelUtils::parallel_for`:
`(n_task / n_threads) + (n_task % n_threads == 0 ? 0 : 1)`
(unsigned division, as in the source where `n_task` is `size_t`). -/
def n_max_tasks_per_thread (n_task n_threads : Nat) : Nat :=
  n_task / n_threads + (if n_task % n_threads = 0 then 0 else 1)

/-- `n_lacking_tasks` of `AParallelUtils::parallel_for`:
`n_max_tasks_per_thread * n_threads - n_task`, computed in signed
arithmetic (its value is always nonnegative). -/
def n_lacking_tasks (n_task n_threads : Nat) : Int :=
  (n_max_tasks_per_thread n_task n_threads : Int) * n_threads - n_task

/-- `inclusive_start_index` computed by `inner_loop` of
`AParallelUtils::parallel_for` for thread `thread_index`:
`thread_index * n_max_tasks_per_thread - max(thread_index - n_threads + n_lacking_tasks, 0)`. -/
def inclusive_start_index (n_task n_threads : Nat) (thread_index : Nat) : Int :=
  (thread_index : Int) * n_max_tasks_per_thread n_task n_threads -
    max ((thread_index : Int) - n_threads + n_lacking_tasks n_task n_threads) 0

/-- `exclusive_end_index` computed by `inner_loop` of
`AParallelUtils::parallel_for` for thread `thread_index`. -/
def exclusive_end_index (n_task n_threads : Nat) (thread_index : Nat) : Int :=
  inclusive_start_index n_task n_threads thread_index +
    n_max_tasks_per_thread n_task n_threads -
    (if (0 : Int) ≤ (thread_index : Int) - n_threads + n_lacking_tasks n_task n_threads
      then 1 else 0)

/-- All indices passed to `function` by `AParallelUtils::parallel_for start end_`
run with `n_threads` workers: thread `j` runs `k` from its
`inclusive_start_index` to its `exclusive_end_index`; threads are listed in
thread-index order (the claims analysed here are about the multiset of
callback arguments, which does not depend on the interleaving). -/
def parallel_for_calls (start end_ n_threads : Nat) : List Int :=
  (List.range n_threads).flatMap (fun j =>
    intLoop (inclusive_start_index (end_ - start) n_threads j)
            (exclusive_end_index (end_ - start) n_threads j))

/-- Analysis device (not source code): the common boundary formula of the
static split. `inclusive_start_index` is literally `chunkBoundary j`, and
`exclusive_end_index` is proved equal to `chunkBoundary (j+1)` below. -/
def chunkBoundary (n_task n_threads : Nat) (j : Nat) : Int :=
  (j : Int) * n_max_tasks_per_thread n_task n_threads -
    max ((j : Int) - n_threads + n_lacking_tasks n_task n_threads) 0

/-- `AParallelUtils::parallel_for_seize` keeps one shared
`std::atomic<size_t> task_index(start)`; every loop iteration of every
worker performs one `fetch_add(1)`. Atomicity makes the fetches globally
ordered: the `k`-th fetch event (from 0) returns `start + k`. A worker
passes the fetched value to `func` exactly when it is `< end`. Given a
history of `F` fetch events, this is the list of indices passed to `func`,
in fetch order. -/
def seize_processed (start end_ : Nat) (F : Nat) : List Nat :=
  (List.range F).filterMap (fun k => if start + k < end_ then some (start + k) else none)

/-- A complete (joined) run of `parallel_for_seize` with `T` workers and a
fetch history of length `F`, where `sched k` names the worker that performed
the `k`-th fetch: each worker's `while` loop exits only once that worker
performs a fetch whose returned value is `≥ end`, so in a joined run every
worker owns at least one such fetch. -/
def seize_terminated (start end_ T F : Nat) (sched : Nat → Nat) : Prop :=
  ∀ t < T, ∃ k < F, sched k = t ∧ end_ ≤ start + k

/-- `ExecutionPolicy` of Tool/Parallel.h. -/
inductive ExecutionPolicy where
  | SERIAL
  | PARALLEL
deriving DecidableEq

/-- `AParallelUtils::parallelFor`, the public dispatch entry point: returns
immediately when `start > end`; under `PARALLEL` it delegates to
`parallel_for_seize` on the same arguments; under `SERIAL` it runs
`func(i)` for `i` in `[start, end)` on the calling thread. Denotation: the
list of indices passed to `func`, given a fetch history of length `F` for
the parallel strategy. -/
def parallelFor (start end_ : Nat) (F : Nat) (policy : ExecutionPolicy) : List Nat :=
  if start > end_ then []
  else
    match policy with
    | .PARALLEL => seize_processed start end_ F
    | .SERIAL => List.range' start (end_ - start)

/-! ### Sampler protocol (Core/Scene.h, `Sampler` / `RandomSampler`)

The `Rng` class used by `RandomSampler` is not part of the analysed sources. -/

/-- Modelled from the spec: the `Rng` pseudo-random generator is missing from
the sources; the spec requires only that each sampler clone owns one
independent, reseedable, deterministic generator whose output stream is a
function of the seed alone. A draw is identified by the pair
(current sequence seed, position in that sequence). -/
structure RNG where
  sequence : Nat
  position : Nat
deriving DecidableEq

/-- A sample value. `Float` arithmetic is never performed by the analysed
code; values only flow from the generator into buffers and out of getters,
so they are represented by their identity in the random stream. -/
abbrev FloatVal : Type := Nat × Nat

/-- Modelled from the spec: `Rng::uniformFloat` returns the next value of the
deterministic stream and advances the generator. -/
def RNG.uniformFloat (r : RNG) : FloatVal × RNG :=
  ((r.sequence, r.position), { r with position := r.position + 1 })

/-- Modelled from the spec: `Rng::setSequence` reseeds the generator so that
its subsequent output is a function of the seed alone. -/
def RNG.setSequence (_ : RNG) (seed : Nat) : RNG :=
  { sequence := seed, position := 0 }

/-- Advance the generator by `n` draws (analysis device). -/
def RNG.advance (r : RNG) (n : Nat) : RNG :=
  { r with position := r.position + n }

/-- Result of `Sampler::get1DArray` / `get2DArray`: the source returns
`nullptr` once all registered arrays are consumed (`absent`), aborts on a
failed `CHECK_*` assertive precondition (`checkFail`), and otherwise returns
a pointer to `n` elements of the current sample's slice (`view`). -/
inductive ArrayGet (α : Type) where
  | checkFail
  | absent
  | view (xs : List α)
deriving DecidableEq

/-- Whether an `ArrayGet` is a successful view. -/
def ArrayGet.isView {α : Type} : ArrayGet α → Bool
  | .view _ => true
  | _ => false

/-- Whether an `ArrayGet` is the `nullptr` (absent) result. -/
def ArrayGet.isAbsent {α : Type} : ArrayGet α → Bool
  | .absent => true
  | _ => false

/-- State of a `RandomSampler` (the only concrete `Sampler` in the sources;
the fields up to `m_sampleArray2D` are the base-class `Sampler` state, `m_rng`
is the derived-class generator). Field names and integer widths follow the
source: `samplesPerPixel` and the sample index are `int64_t` (`Int`), the
array cursors and vector sizes are unsigned (`Nat`). -/
structure RandomSampler where
  samplesPerPixel : Int
  m_currentPixel : Int × Int
  m_currentPixelSampleIndex : Int
  m_array1DOffset : Nat
  m_array2DOffset : Nat
  m_samples1DArraySizes : List Nat
  m_samples2DArraySizes : List Nat
  m_sampleArray1D : List (List FloatVal)
  m_sampleArray2D : List (List (FloatVal × FloatVal))
  m_rng : RNG
deriving DecidableEq

/-- `RandomSampler::RandomSampler(int ns, int seed)`: base construction with
`samplesPerPixel = ns` and a generator built from `seed`. -/
def mkRandomSampler (ns : Int) (seed : Nat) : RandomSampler :=
  { samplesPerPixel := ns
    m_currentPixel := (0, 0)
    m_currentPixelSampleIndex := 0
    m_array1DOffset := 0
    m_array2DOffset := 0
    m_samples1DArraySizes := []
    m_samples2DArraySizes := []
    m_sampleArray1D := []
    m_sampleArray2D := []
    m_rng := { sequence := seed, position := 0 } }

/-- `Sampler::startPixel` (the base-class implementation): store the pixel,
reset the sample index to 0 and both array cursors to 0. -/
def Sampler.startPixel (s : RandomSampler) (p : Int × Int) : RandomSampler :=
  { s with
    m_currentPixel := p
    m_currentPixelSampleIndex := 0
    m_array1DOffset := 0
    m_array2DOffset := 0 }

/-- `Sampler::startNextSample`: reset both array cursors, pre-increment the
sample index, and report whether the new index is still below
`samplesPerPixel`. -/
def Sampler.startNextSample (s : RandomSampler) : Bool × RandomSampler :=
  let s2 : RandomSampler :=
    { s with
      m_array1DOffset := 0
      m_array2DOffset := 0
      m_currentPixelSampleIndex := s.m_currentPixelSampleIndex + 1 }
  (decide (s2.m_currentPixelSampleIndex < s2.samplesPerPixel), s2)

/-- `Sampler::setSampleNumber`: reset both array cursors, set the sample
index to `sampleNum`, and report whether it is below `samplesPerPixel`. -/
def Sampler.setSampleNumber (s : RandomSampler) (sampleNum : Int) : Bool × RandomSampler :=
  let s2 : RandomSampler :=
    { s with
      m_array1DOffset := 0
      m_array2DOffset := 0
      m_currentPixelSampleIndex := sampleNum }
  (decide (s2.m_currentPixelSampleIndex < s2.samplesPerPixel), s2)

/-- `Sampler::roundCount`. Modelled from the spec: the virtual rounding hook
is not in the analysed sources; the pseudo-random strategy imposes no
rounding, so `roundCount` is the identity. -/
def Sampler.roundCount (n : Nat) : Nat := n

/-- `Sampler::request1DArray`: `CHECK_EQ(roundCount(n), n)` (always satisfied
here, see `Sampler.roundCount`), record the size, and allocate a backing
buffer of `n * samplesPerPixel` value-initialized elements. -/
def Sampler.request1DArray (s : RandomSampler) (n : Nat) : RandomSampler :=
  { s with
    m_samples1DArraySizes := s.m_samples1DArraySizes ++ [n]
    m_sampleArray1D :=
      s.m_sampleArray1D ++ [List.replicate ((n : Int) * s.samplesPerPixel).toNat ((0, 0) : FloatVal)] }

/-- `Sampler::request2DArray`: as `request1DArray` for 2D sample arrays. -/
def Sampler.request2DArray (s : RandomSampler) (n : Nat) : RandomSampler :=
  { s with
    m_samples2DArraySizes := s.m_samples2DArraySizes ++ [n]
    m_sampleArray2D :=
      s.m_sampleArray2D ++
        [List.replicate ((n : Int) * s.samplesPerPixel).toNat (((0, 0), (0, 0)) : FloatVal × FloatVal)] }

/-- `Sampler::get1DArray`: `nullptr` once the cursor has consumed every
registered 1D array; otherwise `CHECK_EQ(m_samples1DArraySizes[offset], n)`
and `CHECK_LT(m_currentPixelSampleIndex, samplesPerPixel)`, then return the
slice `&m_sampleArray1D[offset][m_currentPixelSampleIndex * n]` of `n`
elements and post-increment the cursor. -/
def Sampler.get1DArray (s : RandomSampler) (n : Nat) : ArrayGet FloatVal × RandomSampler :=
  if s.m_array1DOffset = s.m_sampleArray1D.length then (.absent, s)
  else if s.m_samples1DArraySizes.getD s.m_array1DOffset 0 ≠ n then (.checkFail, s)
  else if ¬ s.m_currentPixelSampleIndex < s.samplesPerPixel then (.checkFail, s)
  else
    (.view (((s.m_sampleArray1D.getD s.m_array1DOffset []).drop
        (s.m_currentPixelSampleIndex * n).toNat).take n),
      { s with m_array1DOffset := s.m_array1DOffset + 1 })

/-- `Sampler::get2DArray`: as `get1DArray` for 2D sample arrays. -/
def Sampler.get2DArray (s : RandomSampler) (n : Nat) :
    ArrayGet (FloatVal × FloatVal) × RandomSampler :=
  if s.m_array2DOffset = s.m_sampleArray2D.length then (.absent, s)
  else if s.m_samples2DArraySizes.getD s.m_array2DOffset 0 ≠ n then (.checkFail, s)
  else if ¬ s.m_currentPixelSampleIndex < s.samplesPerPixel then (.checkFail, s)
  else
    (.view (((s.m_sampleArray2D.getD s.m_array2DOffset []).drop
        (s.m_currentPixelSampleIndex * n).toNat).take n),
      { s with m_array2DOffset := s.m_array2DOffset + 1 })

/-- `RandomSampler::get1D`: `CHECK_LT(m_currentPixelSampleIndex,
samplesPerPixel)` (failure is fatal, modelled as `none`), then one draw from
the generator. -/
def RandomSampler.get1D (s : RandomSampler) : Option FloatVal × RandomSampler :=
  if s.m_currentPixelSampleIndex < s.samplesPerPixel then
    let d := s.m_rng.uniformFloat
    (some d.1, { s with m_rng := d.2 })
  else (none, s)

/-- `RandomSampler::get2D`: the same precondition, then two draws (the braced
initializer list evaluates left to right). -/
def RandomSampler.get2D (s : RandomSampler) : Option (FloatVal × FloatVal) × RandomSampler :=
  if s.m_currentPixelSampleIndex < s.samplesPerPixel then
    let d1 := s.m_rng.uniformFloat
    let d2 := d1.2.uniformFloat
    (some (d1.1, d2.1), { s with m_rng := d2.2 })
  else (none, s)

/-- `RandomSampler::clone(int seed)`: copy the whole sampler, then reseed the
copy's generator with `setSequence(seed)`. -/
def RandomSampler.clone (s : RandomSampler) (seed : Nat) : RandomSampler :=
  { s with m_rng := s.m_rng.setSequence seed }

/-- Inner loop of `RandomSampler::startPixel`: overwrite every element of one
row with a fresh draw, threading the generator. -/
def refillRow : List FloatVal → RNG → List FloatVal × RNG
  | [], r => ([], r)
  | _ :: xs, r =>
    let d := r.uniformFloat
    let rest := refillRow xs d.2
    (d.1 :: rest.1, rest.2)

/-- Outer loop of `RandomSampler::startPixel` over the registered 1D arrays. -/
def refillRows : List (List FloatVal) → RNG → List (List FloatVal) × RNG
  | [], r => ([], r)
  | row :: rows, r =>
    let h := refillRow row r
    let t := refillRows rows h.2
    (h.1 :: t.1, t.2)

/-- Inner loop of `RandomSampler::startPixel` over one registered 2D array:
each element takes two consecutive draws. -/
def refillRow2 : List (FloatVal × FloatVal) → RNG → List (FloatVal × FloatVal) × RNG
  | [], r => ([], r)
  | _ :: xs, r =>
    let d1 := r.uniformFloat
    let d2 := d1.2.uniformFloat
    let rest := refillRow2 xs d2.2
    ((d1.1, d2.1) :: rest.1, rest.2)

/-- Outer loop of `RandomSampler::startPixel` over the registered 2D arrays. -/
def refillRows2 : List (List (FloatVal × FloatVal)) → RNG → List (List (FloatVal × FloatVal)) × RNG
  | [], r => ([], r)
  | row :: rows, r =>
    let h := refillRow2 row r
    let t := refillRows2 rows h.2
    (h.1 :: t.1, t.2)

/-- `RandomSampler::startPixel`: refill every slot of every registered 1D
array, then of every registered 2D array, with fresh draws, then run the
base-class `Sampler::startPixel`. -/
def RandomSampler.startPixel (s : RandomSampler) (p : Int × Int) : RandomSampler :=
  let a1 := refillRows s.m_sampleArray1D s.m_rng
  let a2 := refillRows2 s.m_sampleArray2D a1.2
  Sampler.startPixel
    { s with m_sampleArray1D := a1.1, m_sampleArray2D := a2.1, m_rng := a2.2 } p

/-- The first `n` draws of the stream of generator `r` (analysis device). -/
def streamDraws (r : RNG) (n : Nat) : List FloatVal :=
  (List.range n).map (fun k => (r.sequence, r.position + k))

/-- The first `n` consecutive pairs of draws of the stream of generator `r`
(analysis device). -/
def pairDraws (r : RNG) (n : Nat) : List (FloatVal × FloatVal) :=
  (List.range n).map (fun k => ((r.sequence, r.position + 2 * k), (r.sequence, r.position + 2 * k + 1)))

/-! ### Driver for determinism claims -/

/-- One sampler-protocol call, as issued by a render driver. -/
inductive SamplerOp where
  | startPixel (p : Int × Int)
  | startNextSample
  | setSampleNumber (n : Int)
  | get1D
  | get2D
  | get1DArray (n : Nat)
  | get2DArray (n : Nat)
deriving DecidableEq

/-- Observable outcome of one sampler-protocol call. -/
inductive SamplerOut where
  | done
  | flag (b : Bool)
  | value (v : Option FloatVal)
  | value2 (v : Option (FloatVal × FloatVal))
  | arr1 (a : ArrayGet FloatVal)
  | arr2 (a : ArrayGet (FloatVal × FloatVal))
deriving DecidableEq

/-- Run one call against a sampler state. -/
def runOp (s : RandomSampler) : SamplerOp → SamplerOut × RandomSampler
  | .startPixel p => (.done, s.startPixel p)
  | .startNextSample =>
    let r := Sampler.startNextSample s
    (.flag r.1, r.2)
  | .setSampleNumber n =>
    let r := Sampler.setSampleNumber s n
    (.flag r.1, r.2)
  | .get1D =>
    let r := s.get1D
    (.value r.1, r.2)
  | .get2D =>
    let r := s.get2D
    (.value2 r.1, r.2)
  | .get1DArray n =>
    let r := Sampler.get1DArray s n
    (.arr1 r.1, r.2)
  | .get2DArray n =>
    let r := Sampler.get2DArray s n
    (.arr2 r.1, r.2)

/-- The observable trace of a call sequence against a sampler state. -/
def runOps (s : RandomSampler) : List SamplerOp → List SamplerOut
  | [] => []
  | op :: ops =>
    let r := runOp s op
    r.1 :: runOps r.2 ops

/-! ### Scattering-model construction (Materials/LambertianMaterial.cpp) -/

/-- `TransportMode` flag passed to `computeScatteringFunctions`. -/
inductive TransportMode where
  | Radiance
  | Importance
deriving DecidableEq

/-- Modelled from the spec: the `Spectrum` arithmetic type is not in the
analysed sources; the material code only stores a reflectance and asks
whether it is black (all coefficients zero). Coefficients are exact
rationals since no arithmetic is performed on them here. -/
structure Spectrum where
  coefficients : List ℚ
deriving DecidableEq

/-- Modelled from the spec: `Spectrum::isBlack` — every coefficient is zero. -/
def Spectrum.isBlack (s : Spectrum) : Bool :=
  s.coefficients.all (fun c => decide (c = 0))

/-- A scattering lobe; the Lambertian material only ever constructs
`LambertianReflection R`. -/
inductive BxDF where
  | lambertianReflection (R : Spectrum)
deriving DecidableEq

/-- The scattering-model container. Modelled from the spec: `BSDF` itself is
not in the analysed sources; it aggregates the lobes added to it. -/
structure BSDF where
  bxdfs : List BxDF
deriving DecidableEq

/-- Modelled from the spec: `BSDF::add` appends one lobe. -/
def BSDF.add (b : BSDF) (x : BxDF) : BSDF :=
  { bxdfs := b.bxdfs ++ [x] }

/-- The slice of a `SurfaceInteraction` the material touches: the attached
scattering model (absent until `computeScatteringFunctions` runs). -/
structure SurfaceInteraction where
  bsdf : Option BSDF
deriving DecidableEq

/-- The per-thread arena, abstracted to its allocation count: `ARENA_ALLOC`
places one more object into the arena. -/
structure MemoryArena where
  allocCount : Nat
deriving DecidableEq

/-- One `ARENA_ALLOC` call. -/
def MemoryArena.alloc (a : MemoryArena) : MemoryArena :=
  { allocCount := a.allocCount + 1 }

/-- The Lambertian material: its reflectance `m_Kr`. -/
structure LambertianMaterial where
  m_Kr : Spectrum
deriving DecidableEq

/-- `LambertianMaterial::computeScatteringFunctions`: arena-allocate a fresh
`BSDF` and attach it to the interaction; if the reflectance is not black,
arena-allocate a `LambertianReflection` lobe carrying it and add it to the
attached container. -/
def LambertianMaterial.computeScatteringFunctions (mat : LambertianMaterial)
    (si : SurfaceInteraction) (arena : MemoryArena)
    (_ : TransportMode) (_ : Bool) : SurfaceInteraction × MemoryArena :=
  let arena1 := arena.alloc
  let si1 : SurfaceInteraction := { si with bsdf := some { bxdfs := [] } }
  let R := mat.m_Kr
  if !R.isBlack then
    (⟨si1.bsdf.map (fun b => b.add (BxDF.lambertianReflection R))⟩, arena1.alloc)
  else
    (si1, arena1)

/-! ### Concrete protocol scenarios -/

/-- The sampler of the array-protocol scenario: `samplesPerPixel = 8`, one
registered 1D array of size 4 and one registered 2D array of size 2. -/
def c3_sampler : RandomSampler :=
  Sampler.request2DArray (Sampler.request1DArray (mkRandomSampler 8 0) 4) 2

/-- One pixel sample of the array-protocol scenario: `get1DArray(4)` must
yield a view, a second `get1DArray(4)` must be absent, and likewise for
`get2DArray(2)`. -/
def c3_step (s : RandomSampler) : Bool × RandomSampler :=
  let a1 := Sampler.get1DArray s 4
  let a1b := Sampler.get1DArray a1.2 4
  let a2 := Sampler.get2DArray a1b.2 2
  let a2b := Sampler.get2DArray a2.2 2
  (a1.1.isView && a1b.1.isAbsent && a2.1.isView && a2b.1.isAbsent, a2b.2)

/-- Run `k` pixel samples of the array-protocol scenario, advancing between
consecutive samples with `startNextSample` and requiring it to report `true`. -/
def c3_loop : Nat → RandomSampler → Bool
  | 0, _ => true
  | Nat.succ k, s =>
    let st := c3_step s
    if k = 0 then st.1
    else
      let nx := Sampler.startNextSample st.2
      st.1 && nx.1 && c3_loop k nx.2

/-- The whole array-protocol scenario, started with `startPixel`. -/
def c3_result : Bool :=
  c3_loop 8 (RandomSampler.startPixel c3_sampler (1, 2))

/-- First witness sampler for the clone-determinism claim: registration
configuration of one 1D array of size 1 at `samplesPerPixel = 2`, with
arbitrary mid-render control state and buffer contents. -/
def c4_samplerA : RandomSampler :=
  { samplesPerPixel := 2
    m_currentPixel := (3, 4)
    m_currentPixelSampleIndex := 1
    m_array1DOffset := 1
    m_array2DOffset := 0
    m_samples1DArraySizes := [1]
    m_samples2DArraySizes := []
    m_sampleArray1D := [[(9, 9), (8, 8)]]
    m_sampleArray2D := []
    m_rng := { sequence := 5, position := 17 } }

/-- Second witness sampler for the clone-determinism claim: the same
registration configuration as `c4_samplerA` but different control state,
buffer contents and generator. -/
def c4_samplerB : RandomSampler :=
  { samplesPerPixel := 2
    m_currentPixel := (0, 0)
    m_currentPixelSampleIndex := 0
    m_array1DOffset := 0
    m_array2DOffset := 0
    m_samples1DArraySizes := [1]
    m_samples2DArraySizes := []
    m_sampleArray1D := [[(1, 2), (3, 4)]]
    m_sampleArray2D := []
    m_rng := { sequence := 2, position := 0 } }

/-- Call sequence used by the clone-determinism witness. -/
def c4_ops : List SamplerOp :=
  [.get1D, .get1DArray 1, .get2D, .startNextSample, .get1DArray 1]

/-- Witness sampler for the size-mismatch claim: one unconsumed 1D array of
registered size 4 and one unconsumed 2D array of registered size 2. -/
def c8_sampler : RandomSampler :=
  Sampler.request2DArray (Sampler.request1DArray (mkRandomSampler 8 0) 4) 2

/-! ### Theorems: scheduler -/

lemma intLoop_append (a b c : Int) (hab : a ≤ b) (hbc : b ≤ c) :
    intLoop a b ++ intLoop b c = intLoop a c := by
  unfold intLoop
  have h1 : (c - a).toNat = (b - a).toNat + (c - b).toNat := by omega
  rw [h1, List.range_add, List.map_append, List.map_map]
  congr 1
  refine List.map_congr_left ?_
  intro x _
  simp only [Function.comp_apply]
  omega

lemma boundary_le (b : Nat → Int) : ∀ T : Nat, (∀ j, j < T → b j ≤ b (j + 1)) → b 0 ≤ b T
  | 0, _ => le_refl _
  | T + 1, mono =>
    le_trans (boundary_le b T (fun j hj => mono j (Nat.lt_succ_of_lt hj)))
      (mono T (Nat.lt_succ_self T))

lemma flatMap_intLoop (b : Nat → Int) : ∀ T : Nat, (∀ j, j < T → b j ≤ b (j + 1)) →
    (List.range T).flatMap (fun j => intLoop (b j) (b (j + 1))) = intLoop (b 0) (b T)
  | 0, _ => by simp [intLoop]
  | T + 1, mono => by
    rw [List.range_succ, List.flatMap_append,
      flatMap_intLoop b T (fun j hj => mono j (Nat.lt_succ_of_lt hj))]
    simp only [List.flatMap_cons, List.flatMap_nil, List.append_nil]
    exact intLoop_append _ _ _
      (boundary_le b T (fun j hj => mono j (Nat.lt_succ_of_lt hj)))
      (mono T (Nat.lt_succ_self T))

lemma n_max_pos (n T : Nat) (hT : 0 < T) (hn : 0 < n) : 1 ≤ n_max_tasks_per_thread n T := by
  unfold n_max_tasks_per_thread
  rcases Nat.eq_zero_or_pos (n % T) with h | h
  · rw [if_pos h]
    have hTn : T ≤ n := Nat.le_of_dvd hn (Nat.dvd_of_mod_eq_zero h)
    have h1 := (Nat.one_le_div_iff hT).mpr hTn
    omega
  · rw [if_neg (by omega)]
    exact Nat.le_add_left 1 (n / T)

lemma n_lacking_eq (n T : Nat) (hT : 0 < T) :
    n_lacking_tasks n T = if n % T = 0 then 0 else (T : Int) - ((n % T : Nat) : Int) := by
  have hdm : T * (n / T) + n % T = n := Nat.div_add_mod n T
  unfold n_lacking_tasks n_max_tasks_per_thread
  rcases Nat.eq_zero_or_pos (n % T) with h | h
  · rw [if_pos h, if_pos h]
    have hc : (T : Int) * ((n / T : Nat) : Int) = (n : Int) := by
      have h2 : T * (n / T) = n := by omega
      exact_mod_cast h2
    rw [Nat.add_zero]
    linear_combination hc
  · rw [if_neg (by omega), if_neg (by omega)]
    have hc : (T : Int) * ((n / T : Nat) : Int) + ((n % T : Nat) : Int) = (n : Int) := by
      exact_mod_cast hdm
    have hcast : ((n / T + 1 : Nat) : Int) = ((n / T : Nat) : Int) + 1 := by
      exact_mod_cast rfl
    rw [hcast]
    linear_combination hc

lemma n_lacking_nonneg (n T : Nat) (hT : 0 < T) : 0 ≤ n_lacking_tasks n T := by
  rw [n_lacking_eq n T hT]
  have hmod : n % T < T := Nat.mod_lt n hT
  rcases Nat.eq_zero_or_pos (n % T) with h | h
  · rw [if_pos h]
  · rw [if_neg (by omega)]
    omega

lemma n_lacking_lt (n T : Nat) (hT : 0 < T) : n_lacking_tasks n T < (T : Int) := by
  rw [n_lacking_eq n T hT]
  have hmod : n % T < T := Nat.mod_lt n hT
  rcases Nat.eq_zero_or_pos (n % T) with h | h
  · rw [if_pos h]
    exact_mod_cast hT
  · rw [if_neg (by omega)]
    omega

lemma n_max_mul_sub (n T : Nat) :
    (n_max_tasks_per_thread n T : Int) * T - n_lacking_tasks n T = n := by
  unfold n_lacking_tasks
  ring

lemma exclusive_end_eq (n T : Nat) (j : Nat) :
    exclusive_end_index n T j = chunkBoundary n T (j + 1) := by
  unfold exclusive_end_index inclusive_start_index chunkBoundary
  push_cast
  rcases le_or_lt (0 : Int) ((j : Int) - T + n_lacking_tasks n T) with h | h
  · rw [if_pos h, max_eq_left h, max_eq_left (by linarith)]
    ring
  · rw [if_neg (not_le.mpr h), max_eq_right (by linarith), max_eq_right (by linarith)]
    ring

lemma chunkBoundary_mono (n T : Nat) (hM : 1 ≤ n_max_tasks_per_thread n T) (j : Nat) :
    chunkBoundary n T j ≤ chunkBoundary n T (j + 1) := by
  unfold chunkBoundary
  push_cast
  have hM2 : (1 : Int) ≤ (n_max_tasks_per_thread n T : Int) := by exact_mod_cast hM
  rcases le_or_lt (0 : Int) ((j : Int) - T + n_lacking_tasks n T) with h | h
  · rw [max_eq_left h, max_eq_left (by linarith)]
    nlinarith
  · rw [max_eq_right (by linarith), max_eq_right (by linarith)]
    nlinarith

lemma chunkBoundary_zero (n T : Nat) (hT : 0 < T) (hn : 0 < n) :
    chunkBoundary n T 0 = 0 := by
  have hLlt := n_lacking_lt n T hT
  unfold chunkBoundary
  rw [max_eq_right (by push_cast; linarith)]
  push_cast
  ring

lemma chunkBoundary_top (n T : Nat) (hT : 0 < T) (hn : 0 < n) :
    chunkBoundary n T T = n := by
  have hL0 := n_lacking_nonneg n T hT
  have h4 := n_max_mul_sub n T
  unfold chunkBoundary
  rw [max_eq_left (by linarith)]
  linarith

/-- The multiset of indices the static split hands to the callback is exactly
the zero-based range `[0, end - start)`: the chunks are contiguous and cover
that range exactly once, regardless of thread count. (The spec and the
function's own parameter names call for `[start, end)`; the computed chunks
never add the `start` offset.) -/
theorem parallel_for_covers_zero_based (start end_ T : Nat) (hT : 0 < T) (h : start < end_) :
    parallel_for_calls start end_ T = intLoop 0 ((end_ - start : Nat) : Int) := by
  have hn : 0 < end_ - start := by omega
  have hM := n_max_pos (end_ - start) T hT hn
  unfold parallel_for_calls
  have hbody : (fun j => intLoop (inclusive_start_index (end_ - start) T j)
      (exclusive_end_index (end_ - start) T j))
      = fun j => intLoop (chunkBoundary (end_ - start) T j)
          (chunkBoundary (end_ - start) T (j + 1)) := by
    funext j
    rw [exclusive_end_eq]
    rfl
  rw [hbody, flatMap_intLoop _ T (fun j _ => chunkBoundary_mono _ T hM j),
    chunkBoundary_zero _ T hT hn, chunkBoundary_top _ T hT hn]

/-- Claim C1: the static-split strategy is claimed to cover every index of
`[start, end)` exactly once. The code computes its chunks from
`thread_index * n_max_tasks_per_thread` alone and never adds `start`: called
with `start = 1`, `end = 3` and 2 threads it invokes the callback on indices
0 and 1, and never on index 2, although `2 ∈ [start, end)`. -/
theorem parallel_for_misses_start_offset :
    parallel_for_calls 1 3 2 = [0, 1] ∧ ¬ (2 : Int) ∈ parallel_for_calls 1 3 2 := by
  decide

lemma seize_processed_succ (start end_ F : Nat) :
    seize_processed start end_ (F + 1) =
      seize_processed start end_ F ++ (if start + F < end_ then [start + F] else []) := by
  unfold seize_processed
  rw [List.range_succ, List.filterMap_append]
  by_cases hc : start + F < end_
  · simp [hc]
  · simp [hc]

lemma seize_processed_of_le (start end_ F : Nat) (h : F ≤ end_ - start) :
    seize_processed start end_ F = List.range' start F := by
  induction F with
  | zero => rfl
  | succ F ih =>
    rw [seize_processed_succ, ih (by omega), if_pos (by omega), List.range'_concat]
    simp

lemma seize_processed_of_ge (start end_ F : Nat) (h : end_ - start ≤ F) :
    seize_processed start end_ F = List.range' start (end_ - start) := by
  induction F with
  | zero =>
    have h0 : end_ - start = 0 := by omega
    rw [h0]
    rfl
  | succ F ih =>
    by_cases hc : end_ - start ≤ F
    · rw [seize_processed_succ, ih hc, if_neg (by omega), List.append_nil]
    · have he : end_ - start = F + 1 := by omega
      rw [seize_processed_succ, seize_processed_of_le start end_ F (by omega),
        if_pos (by omega), he, List.range'_concat]
      simp

/-- Claim C2: in every joined run of the atomic-seize strategy over
`[start, end)` with at least one worker, each index of `[start, end)` is
passed to the callback exactly once across all workers combined, and no
other index is ever passed. -/
theorem parallel_for_seize_each_index_once (start end_ T F : Nat) (sched : Nat → Nat)
    (hT : 0 < T) (hterm : seize_terminated start end_ T F sched) (i : Nat) :
    (seize_processed start end_ F).count i = if start ≤ i ∧ i < end_ then 1 else 0 := by
  obtain ⟨k, hkF, -, hk⟩ := hterm 0 hT
  rw [seize_processed_of_ge start end_ F (by omega)]
  by_cases hi : start ≤ i ∧ i < end_
  · rw [if_pos hi]
    exact List.count_eq_one_of_mem (List.nodup_range' _ _)
      (by rw [List.mem_range'_1]; omega)
  · rw [if_neg hi]
    exact List.count_eq_zero_of_not_mem (by rw [List.mem_range'_1]; omega)

/-- Witness for C2: a two-worker joined run over `[2, 5)` with six fetch
events alternating between the workers; index 3 is processed exactly once. -/
theorem parallel_for_seize_each_index_once_witness :
    (0 < 2 ∧ seize_terminated 2 5 2 6 (fun k => k % 2)) ∧
      (seize_processed 2 5 6).count 3 = 1 := by
  have hterm : seize_terminated 2 5 2 6 (fun k => k % 2) := by
    unfold seize_terminated
    decide
  refine ⟨⟨by decide, hterm⟩, ?_⟩
  have h := parallel_for_seize_each_index_once 2 5 2 6 (fun k => k % 2) (by decide) hterm 3
  simpa using h

/-- Claim C7: the public dispatch entry point with `start > end` never
invokes the callback under either policy, and with `start == end` it
processes no work units. -/
theorem parallelFor_degenerate_ranges (start end_ F : Nat) (policy : ExecutionPolicy)
    (h : end_ < start) :
    parallelFor start end_ F policy = [] ∧ parallelFor end_ end_ F policy = [] := by
  constructor
  · unfold parallelFor
    rw [if_pos (by omega)]
  · unfold parallelFor
    rw [if_neg (by omega)]
    cases policy with
    | SERIAL => simp
    | PARALLEL =>
      unfold seize_processed
      rw [List.filterMap_eq_nil_iff]
      intro a _
      rw [if_neg (by omega)]

/-- Witness for C7: dispatching over the reversed range `[5, 3)` is a no-op,
and dispatching over the empty range `[3, 3)` processes nothing. -/
theorem parallelFor_degenerate_ranges_witness :
    (3 < 5 ∧ parallelFor 5 3 2 .PARALLEL = []) ∧ parallelFor 3 3 2 .PARALLEL = [] := by
  have h := parallelFor_degenerate_ranges 5 3 2 .PARALLEL (by decide)
  exact ⟨⟨by decide, h.1⟩, h.2⟩

/-- Claim C10: for every range and fetch history, dispatching with the
`PARALLEL` policy produces exactly the behaviour of calling the atomic-seize
strategy directly on the same arguments; and on a range where the private
static-split strategy behaves differently (`[1, 3)` with 2 threads), the
dispatcher agrees with atomic-seize, not with the static split — which no
public entry point invokes. -/
theorem parallelFor_PARALLEL_is_seize :
    (∀ start end_ F : Nat,
        parallelFor start end_ F .PARALLEL = seize_processed start end_ F) ∧
      (parallelFor 1 3 4 .PARALLEL).map (fun i => (i : Int)) ≠ parallel_for_calls 1 3 2 := by
  constructor
  · intro start end_ F
    unfold parallelFor
    by_cases h : start > end_
    · rw [if_pos h]
      symm
      unfold seize_processed
      rw [List.filterMap_eq_nil_iff]
      intro a _
      rw [if_neg (by omega)]
    · rw [if_neg h]
  · decide

/-! ### Theorems: sampler protocol -/

lemma RNG.advance_zero (r : RNG) : r.advance 0 = r := by
  cases r
  simp [RNG.advance]

lemma RNG.advance_add (r : RNG) (m n : Nat) : (r.advance m).advance n = r.advance (m + n) := by
  cases r
  simp [RNG.advance]
  omega

lemma streamDraws_zero (r : RNG) : streamDraws r 0 = [] := rfl

lemma streamDraws_length (r : RNG) (n : Nat) : (streamDraws r n).length = n := by
  simp [streamDraws]

lemma streamDraws_succ_head (r : RNG) (n : Nat) :
    streamDraws r (n + 1) = (r.sequence, r.position) :: streamDraws (r.advance 1) n := by
  unfold streamDraws RNG.advance
  rw [List.range_succ_eq_map]
  simp only [List.map_cons, List.map_map, Nat.add_zero, List.cons.injEq]
  refine ⟨trivial, List.map_congr_left ?_⟩
  intro x _
  simp only [Function.comp_apply, Prod.mk.injEq]
  exact ⟨trivial, by omega⟩

lemma streamDraws_add (r : RNG) (n m : Nat) :
    streamDraws r (n + m) = streamDraws r n ++ streamDraws (r.advance n) m := by
  unfold streamDraws RNG.advance
  rw [List.range_add, List.map_append, List.map_map]
  congr 1
  refine List.map_congr_left ?_
  intro x _
  simp only [Function.comp_apply, Prod.mk.injEq]
  exact ⟨trivial, by omega⟩

lemma pairDraws_length (r : RNG) (n : Nat) : (pairDraws r n).length = n := by
  simp [pairDraws]

lemma pairDraws_succ_head (r : RNG) (n : Nat) :
    pairDraws r (n + 1) =
      ((r.sequence, r.position), (r.sequence, r.position + 1)) :: pairDraws (r.advance 2) n := by
  unfold pairDraws RNG.advance
  rw [List.range_succ_eq_map]
  simp only [List.map_cons, List.map_map, Nat.mul_zero, Nat.add_zero, List.cons.injEq]
  refine ⟨trivial, List.map_congr_left ?_⟩
  intro x _
  simp only [Function.comp_apply, Prod.mk.injEq]
  refine ⟨⟨trivial, by omega⟩, trivial, by omega⟩

lemma pairDraws_add (r : RNG) (n m : Nat) :
    pairDraws r (n + m) = pairDraws r n ++ pairDraws (r.advance (2 * n)) m := by
  unfold pairDraws RNG.advance
  rw [List.range_add, List.map_append, List.map_map]
  congr 1
  refine List.map_congr_left ?_
  intro x _
  simp only [Function.comp_apply, Prod.mk.injEq]
  refine ⟨⟨trivial, by omega⟩, trivial, by omega⟩

lemma refillRow_spec (row : List FloatVal) (r : RNG) :
    refillRow row r = (streamDraws r row.length, r.advance row.length) := by
  induction row generalizing r with
  | nil =>
    simp [refillRow, streamDraws_zero, RNG.advance_zero]
  | cons x xs ih =>
    simp only [refillRow, RNG.uniformFloat, ih, List.length_cons]
    rw [streamDraws_succ_head, Prod.mk.injEq]
    constructor
    · rfl
    · simp only [RNG.advance, RNG.mk.injEq]
      exact ⟨trivial, by omega⟩

lemma refillRow2_spec (row : List (FloatVal × FloatVal)) (r : RNG) :
    refillRow2 row r = (pairDraws r row.length, r.advance (2 * row.length)) := by
  induction row generalizing r with
  | nil =>
    simp [refillRow2, pairDraws, RNG.advance_zero]
  | cons x xs ih =>
    simp only [refillRow2, RNG.uniformFloat, ih, List.length_cons]
    rw [pairDraws_succ_head, Prod.mk.injEq]
    constructor
    · rfl
    · simp only [RNG.advance, RNG.mk.injEq]
      exact ⟨trivial, by omega⟩

lemma refillRows_spec (rows : List (List FloatVal)) (r : RNG) :
    (refillRows rows r).1.map List.length = rows.map List.length ∧
      (refillRows rows r).1.flatten = streamDraws r rows.flatten.length ∧
      (refillRows rows r).2 = r.advance rows.flatten.length := by
  induction rows generalizing r with
  | nil =>
    simp [refillRows, streamDraws_zero, RNG.advance_zero]
  | cons row rows ih =>
    obtain ⟨ih1, ih2, ih3⟩ := ih (r.advance row.length)
    simp only [refillRows, refillRow_spec, List.map_cons, List.flatten_cons,
      List.length_append, List.cons.injEq]
    refine ⟨⟨streamDraws_length r row.length, ih1⟩, ?_, ?_⟩
    · rw [ih2, streamDraws_add]
    · rw [ih3, RNG.advance_add]

lemma refillRows2_spec (rows : List (List (FloatVal × FloatVal))) (r : RNG) :
    (refillRows2 rows r).1.map List.length = rows.map List.length ∧
      (refillRows2 rows r).1.flatten = pairDraws r rows.flatten.length ∧
      (refillRows2 rows r).2 = r.advance (2 * rows.flatten.length) := by
  induction rows generalizing r with
  | nil =>
    simp [refillRows2, pairDraws, RNG.advance_zero]
  | cons row rows ih =>
    obtain ⟨ih1, ih2, ih3⟩ := ih (r.advance (2 * row.length))
    simp only [refillRows2, refillRow2_spec, List.map_cons, List.flatten_cons,
      List.length_append, List.cons.injEq]
    refine ⟨⟨pairDraws_length r row.length, ih1⟩, ?_, ?_⟩
    · rw [ih2, pairDraws_add]
    · rw [ih3, RNG.advance_add]
      congr 1
      omega

/-- Claim C5: `startPixel(p)` stores `p` as the current pixel and resets the
sample index and both array cursors to zero — both in the base
implementation and in the pseudo-random override — and the pseudo-random
override additionally overwrites every slot of every registered 1D and 2D
array buffer (shapes preserved) with fresh, pairwise-distinct draws taken
consecutively from the generator's stream: first all 1D slots, then all 2D
slots. -/
theorem startPixel_resets_and_prefills (s : RandomSampler) (p : Int × Int) :
    (Sampler.startPixel s p).m_currentPixel = p ∧
    (Sampler.startPixel s p).m_currentPixelSampleIndex = 0 ∧
    (Sampler.startPixel s p).m_array1DOffset = 0 ∧
    (Sampler.startPixel s p).m_array2DOffset = 0 ∧
    (s.startPixel p).m_currentPixel = p ∧
    (s.startPixel p).m_currentPixelSampleIndex = 0 ∧
    (s.startPixel p).m_array1DOffset = 0 ∧
    (s.startPixel p).m_array2DOffset = 0 ∧
    (s.startPixel p).m_sampleArray1D.map List.length = s.m_sampleArray1D.map List.length ∧
    (s.startPixel p).m_sampleArray2D.map List.length = s.m_sampleArray2D.map List.length ∧
    (s.startPixel p).m_sampleArray1D.flatten =
      streamDraws s.m_rng s.m_sampleArray1D.flatten.length ∧
    (s.startPixel p).m_sampleArray2D.flatten =
      pairDraws (s.m_rng.advance s.m_sampleArray1D.flatten.length)
        s.m_sampleArray2D.flatten.length := by
  obtain ⟨h1a, h1b, h1c⟩ := refillRows_spec s.m_sampleArray1D s.m_rng
  obtain ⟨h2a, h2b, -⟩ :=
    refillRows2_spec s.m_sampleArray2D (refillRows s.m_sampleArray1D s.m_rng).2
  refine ⟨rfl, rfl, rfl, rfl, rfl, rfl, rfl, rfl, h1a, h2a, h1b, ?_⟩
  rw [show (s.startPixel p).m_sampleArray2D =
      (refillRows2 s.m_sampleArray2D (refillRows s.m_sampleArray1D s.m_rng).2).1 from rfl]
  rw [h2b, h1c]

/-- Claim C6: `startNextSample` resets both array cursors to zero, increments
the sample index by one and returns `true` exactly when the new index is
still below `samplesPerPixel`; `setSampleNumber(n)` resets both cursors,
sets the index to `n` and returns `true` exactly when `n` is below
`samplesPerPixel`. -/
theorem startNextSample_setSampleNumber_spec (s : RandomSampler) (n : Int) :
    (Sampler.startNextSample s).2.m_array1DOffset = 0 ∧
    (Sampler.startNextSample s).2.m_array2DOffset = 0 ∧
    (Sampler.startNextSample s).2.m_currentPixelSampleIndex =
      s.m_currentPixelSampleIndex + 1 ∧
    ((Sampler.startNextSample s).1 = true ↔
      s.m_currentPixelSampleIndex + 1 < s.samplesPerPixel) ∧
    (Sampler.setSampleNumber s n).2.m_array1DOffset = 0 ∧
    (Sampler.setSampleNumber s n).2.m_array2DOffset = 0 ∧
    (Sampler.setSampleNumber s n).2.m_currentPixelSampleIndex = n ∧
    ((Sampler.setSampleNumber s n).1 = true ↔ n < s.samplesPerPixel) := by
  refine ⟨rfl, rfl, rfl, ?_, rfl, rfl, rfl, ?_⟩
  · simp [Sampler.startNextSample]
  · simp [Sampler.setSampleNumber]

/-- Claim C3: a sampler with `samplesPerPixel = 8`, one registered 1D array
of size 4 and one registered 2D array of size 2, driven through `startPixel`
and the 8 pixel samples (advanced by `startNextSample`, which reports `true`
on all seven advances): in every sample the first `get1DArray(4)` and the
first `get2DArray(2)` return a view and a second call of the same kind in
the same sample returns absent. -/
theorem sampler_array_protocol : c3_result = true := by decide

/-- Claim C8: when an unconsumed registered array remains at the current
cursor, requesting it with a size different from the registered one fails
the `CHECK_EQ` assertive precondition (fatal), for both `get1DArray` and
`get2DArray` — no truncated or differently-sized view is returned. -/
theorem get_array_size_mismatch_fails (s : RandomSampler) (n : Nat)
    (h1 : s.m_array1DOffset < s.m_sampleArray1D.length)
    (h1s : s.m_samples1DArraySizes.getD s.m_array1DOffset 0 ≠ n)
    (h2 : s.m_array2DOffset < s.m_sampleArray2D.length)
    (h2s : s.m_samples2DArraySizes.getD s.m_array2DOffset 0 ≠ n) :
    (Sampler.get1DArray s n).1 = ArrayGet.checkFail ∧
      (Sampler.get2DArray s n).1 = ArrayGet.checkFail := by
  constructor
  · unfold Sampler.get1DArray
    rw [if_neg (by omega), if_pos h1s]
  · unfold Sampler.get2DArray
    rw [if_neg (by omega), if_pos h2s]

/-- Witness for C8: on the sampler with one unconsumed registered 1D array of
size 4 and one unconsumed registered 2D array of size 2, requesting size 3
fails the assertive check in both getters. -/
theorem get_array_size_mismatch_fails_witness :
    (c8_sampler.m_array1DOffset < c8_sampler.m_sampleArray1D.length ∧
        c8_sampler.m_samples1DArraySizes.getD c8_sampler.m_array1DOffset 0 ≠ 3 ∧
        c8_sampler.m_array2DOffset < c8_sampler.m_sampleArray2D.length ∧
        c8_sampler.m_samples2DArraySizes.getD c8_sampler.m_array2DOffset 0 ≠ 3) ∧
      (Sampler.get1DArray c8_sampler 3).1 = ArrayGet.checkFail ∧
      (Sampler.get2DArray c8_sampler 3).1 = ArrayGet.checkFail := by
  refine ⟨⟨by decide, by decide, by decide, by decide⟩, ?_, ?_⟩
  · exact (get_array_size_mismatch_fails c8_sampler 3 (by decide) (by decide) (by decide)
      (by decide)).1
  · exact (get_array_size_mismatch_fails c8_sampler 3 (by decide) (by decide) (by decide)
      (by decide)).2

lemma refillRow_congr (row1 row2 : List FloatVal) (r : RNG) (h : row1.length = row2.length) :
    refillRow row1 r = refillRow row2 r := by
  rw [refillRow_spec, refillRow_spec, h]

lemma refillRow2_congr (row1 row2 : List (FloatVal × FloatVal)) (r : RNG)
    (h : row1.length = row2.length) :
    refillRow2 row1 r = refillRow2 row2 r := by
  rw [refillRow2_spec, refillRow2_spec, h]

lemma refillRows_congr (rows1 rows2 : List (List FloatVal)) (r : RNG)
    (h : rows1.map List.length = rows2.map List.length) :
    refillRows rows1 r = refillRows rows2 r := by
  induction rows1 generalizing rows2 r with
  | nil =>
    cases rows2 with
    | nil => rfl
    | cons _ _ => simp at h
  | cons row rows ih =>
    cases rows2 with
    | nil => simp at h
    | cons row2 rows2 =>
      simp only [List.map_cons, List.cons.injEq] at h
      obtain ⟨hlen, hrest⟩ := h
      simp only [refillRows]
      rw [refillRow_congr row row2 r hlen, ih rows2 _ hrest]

lemma refillRows2_congr (rows1 rows2 : List (List (FloatVal × FloatVal))) (r : RNG)
    (h : rows1.map List.length = rows2.map List.length) :
    refillRows2 rows1 r = refillRows2 rows2 r := by
  induction rows1 generalizing rows2 r with
  | nil =>
    cases rows2 with
    | nil => rfl
    | cons _ _ => simp at h
  | cons row rows ih =>
    cases rows2 with
    | nil => simp at h
    | cons row2 rows2 =>
      simp only [List.map_cons, List.cons.injEq] at h
      obtain ⟨hlen, hrest⟩ := h
      simp only [refillRows2]
      rw [refillRow2_congr row row2 r hlen, ih rows2 _ hrest]

lemma clone_startPixel_eq (s1 s2 : RandomSampler) (seed : Nat) (p : Int × Int)
    (hspp : s1.samplesPerPixel = s2.samplesPerPixel)
    (hsz1 : s1.m_samples1DArraySizes = s2.m_samples1DArraySizes)
    (hsz2 : s1.m_samples2DArraySizes = s2.m_samples2DArraySizes)
    (hsh1 : s1.m_sampleArray1D.map List.length = s2.m_sampleArray1D.map List.length)
    (hsh2 : s1.m_sampleArray2D.map List.length = s2.m_sampleArray2D.map List.length) :
    (s1.clone seed).startPixel p = (s2.clone seed).startPixel p := by
  unfold RandomSampler.clone RandomSampler.startPixel Sampler.startPixel RNG.setSequence
  have e1 := refillRows_congr s1.m_sampleArray1D s2.m_sampleArray1D
    { sequence := seed, position := 0 } hsh1
  have e2 := refillRows2_congr s1.m_sampleArray2D s2.m_sampleArray2D
    (refillRows s2.m_sampleArray1D { sequence := seed, position := 0 }).2 hsh2
  simp only []
  rw [hspp, hsz1, hsz2, e1, e2]

/-- Claim C4: two clones produced with the same seed from samplers sharing
the same array-registration configuration (same `samplesPerPixel`, same
registered sizes, same buffer shapes), driven through the same call sequence
beginning with `startPixel`, produce identical output traces — including
`get1D`/`get2D` values and registered-array contents. In particular two
clones of one and the same sampler instance do. -/
theorem clone_determinism (s1 s2 : RandomSampler) (seed : Nat) (p : Int × Int)
    (ops : List SamplerOp)
    (hspp : s1.samplesPerPixel = s2.samplesPerPixel)
    (hsz1 : s1.m_samples1DArraySizes = s2.m_samples1DArraySizes)
    (hsz2 : s1.m_samples2DArraySizes = s2.m_samples2DArraySizes)
    (hsh1 : s1.m_sampleArray1D.map List.length = s2.m_sampleArray1D.map List.length)
    (hsh2 : s1.m_sampleArray2D.map List.length = s2.m_sampleArray2D.map List.length) :
    runOps (s1.clone seed) (SamplerOp.startPixel p :: ops) =
      runOps (s2.clone seed) (SamplerOp.startPixel p :: ops) := by
  have hst := clone_startPixel_eq s1 s2 seed p hspp hsz1 hsz2 hsh1 hsh2
  simp only [runOps, runOp]
  rw [hst]

/-- Witness for C4: two samplers with the same registration configuration but
different control state, buffer contents and generators, cloned with seed 7
and driven through the same call sequence, produce the same trace. -/
theorem clone_determinism_witness :
    (c4_samplerA.samplesPerPixel = c4_samplerB.samplesPerPixel ∧
        c4_samplerA.m_samples1DArraySizes = c4_samplerB.m_samples1DArraySizes ∧
        c4_samplerA.m_samples2DArraySizes = c4_samplerB.m_samples2DArraySizes ∧
        c4_samplerA.m_sampleArray1D.map List.length =
          c4_samplerB.m_sampleArray1D.map List.length ∧
        c4_samplerA.m_sampleArray2D.map List.length =
          c4_samplerB.m_sampleArray2D.map List.length) ∧
      runOps (c4_samplerA.clone 7) (SamplerOp.startPixel (1, 1) :: c4_ops) =
        runOps (c4_samplerB.clone 7) (SamplerOp.startPixel (1, 1) :: c4_ops) :=
  ⟨⟨rfl, rfl, rfl, rfl, rfl⟩,
    clone_determinism c4_samplerA c4_samplerB 7 (1, 1) c4_ops rfl rfl rfl rfl rfl⟩

/-! ### Theorems: scattering-model construction -/

/-- Claim C9: `computeScatteringFunctions` always attaches an arena-allocated
scattering-model container to the interaction (the arena's allocation count
grows); with black reflectance the container holds zero lobes, otherwise it
holds exactly one Lambertian reflection lobe carrying the reflectance. -/
theorem lambertian_compute_scattering (mat : LambertianMaterial) (si : SurfaceInteraction)
    (arena : MemoryArena) (mode : TransportMode) (allowMultipleLobes : Bool) :
    (mat.computeScatteringFunctions si arena mode allowMultipleLobes).1.bsdf =
        some { bxdfs := if mat.m_Kr.isBlack then []
          else [BxDF.lambertianReflection mat.m_Kr] } ∧
      arena.allocCount <
        (mat.computeScatteringFunctions si arena mode allowMultipleLobes).2.allocCount := by
  unfold LambertianMaterial.computeScatteringFunctions
  by_cases h : mat.m_Kr.isBlack = true
  · simp [h, MemoryArena.alloc]
  · simp only [Bool.not_eq_true] at h
    simp [h, BSDF.add, MemoryArena.alloc]
    omega

end PBRT
